import Mathlib

/-!
Shallow embedding of the claude-context core (cache, collection naming,
embedding client) and proofs of the specification claims about it.

Modelling conventions:
- JavaScript objects keyed by strings (`Record<string, T>`) become
  association lists `List (String × T)`; `obj[k]` is `List.lookup`,
  assignment `obj[k] = v` replaces the first binding in place or appends.
- JavaScript truthiness of an optional number / string is modelled
  explicitly (`0`, `""`, `undefined` are falsy).
- The Node standard library's `crypto` digests and `path.resolve` are not
  part of this repository; they enter the embedding as opaque function
  parameters (`md5hex`, `resolvePath`).
- Filesystem effects are modelled as explicit operation traces.
-/

/-! ## Filesystem operation traces (for `save()` of the hash caches) -/

/-- A filesystem operation as performed by the cache managers. -/
inductive FsOp where
  | write (targetPath : String) (contents : String)
  | renameOp (src dst : String)
  deriving DecidableEq, Repr

/-- Whether an operation is a rename. -/
def FsOp.isRenameOp : FsOp → Bool
  | .renameOp _ _ => true
  | .write _ _ => false

/-- Apply one operation to a filesystem (a map from path to contents). -/
def applyFsOp (fs : String → Option String) : FsOp → (String → Option String)
  | .write p c => fun q => if q = p then some c else fs q
  | .renameOp src dst => fun q =>
      if q = dst then fs src else if q = src then none else fs q

/-- Run a trace of operations on a filesystem. -/
def runFsTrace (fs : String → Option String) (ops : List FsOp) : String → Option String :=
  ops.foldl applyFsOp fs

/-- The trace of filesystem operations performed by
`SimpleHashCacheManager.save` (and identically `HashCacheManager.save`):
a single `fs.writeFileSync(this.cacheFilePath, JSON.stringify(this.cache))`
directly to the cache file. -/
def saveTrace (cacheFilePath : String) (serializedCache : String) : List FsOp :=
  [FsOp.write cacheFilePath serializedCache]

/-- Crash semantics of a single `write`: `writeFileSync` truncates the
target and writes the new bytes, so a crash after `k` written characters
leaves the target holding `contents.take k`. Operations on other paths
leave the file at its old contents. -/
def fileAfterCrashDuringOp (oldContents : String) (op : FsOp) (target : String)
    (k : Nat) : String :=
  match op with
  | .write p c => if p = target then String.mk (c.toList.take k) else oldContents
  | .renameOp _ _ => oldContents

/-- The spec's claimed mechanism: the trace writes the document to a
temporary path and then renames that path over the target. -/
def writesTempThenRenames (ops : List FsOp) (target : String) : Prop :=
  ∃ tmp contents i j, tmp ≠ target ∧ i < j ∧
    ops.get? i = some (FsOp.write tmp contents) ∧
    ops.get? j = some (FsOp.renameOp tmp target)

/-! ## SimpleHashCacheManager (src/packages/core/src/cache/simple-hash-cache.ts) -/

/-- `FileHashEntry` of simple-hash-cache.ts. -/
structure FileHashEntry where
  hash : String
  lastModified : Nat
  chunkCount : Nat
  deriving DecidableEq, Repr

/-- `SimpleHashCache` of simple-hash-cache.ts; `files` is the
`Record<string, FileHashEntry>` as an association list. -/
structure SimpleHashCache where
  projectPath : String
  collectionName : String
  lastIndexed : Nat
  files : List (String × FileHashEntry)
  deriving DecidableEq, Repr

/-- JS object assignment `files[p] = e`: replace an existing binding in
place, otherwise append a new one. -/
def setEntry (files : List (String × FileHashEntry)) (p : String)
    (e : FileHashEntry) : List (String × FileHashEntry) :=
  if files.any (fun kv => decide (kv.1 = p)) then
    files.map (fun kv => if kv.1 = p then (p, e) else kv)
  else
    files ++ [(p, e)]

/-- `SimpleHashCacheManager.loadCache`. The on-disk document is `some doc`
when the cache file exists and parses, `none` otherwise (missing file or
parse failure both fall through to the fresh cache). -/
def loadCache (storedDoc : Option SimpleHashCache) (now : Nat)
    (projectPath collectionName : String) : SimpleHashCache :=
  match storedDoc with
  | some loaded =>
      if loaded.projectPath = projectPath ∧ loaded.collectionName = collectionName then
        loaded
      else
        ⟨projectPath, collectionName, now, []⟩
  | none => ⟨projectPath, collectionName, now, []⟩

/-- `SimpleHashCacheManager.hasFileChanged`. -/
def hasFileChanged (cache : SimpleHashCache) (relativePath currentHash : String) : Bool :=
  match cache.files.lookup relativePath with
  | none => true
  | some entry => decide (entry.hash ≠ currentHash)

/-- `SimpleHashCacheManager.updateFile`. -/
def updateFile (cache : SimpleHashCache) (relativePath hash : String)
    (now chunkCount : Nat) : SimpleHashCache :=
  { cache with files := setEntry cache.files relativePath ⟨hash, now, chunkCount⟩ }

/-- `SimpleHashCacheManager.getDeletedFiles`; the `Set<string>` argument is
modelled as a list queried with `contains`. -/
def getDeletedFiles (cache : SimpleHashCache) (currentFiles : List String) : List String :=
  (cache.files.map Prod.fst).filter (fun f => !currentFiles.contains f)

/-! ## ProjectMetadataManager.generateCollectionName
(src/packages/core/src/cache/project-metadata.ts) -/

/-- The slug computation of `generateCollectionName`:
`.replace(/[^a-zA-Z0-9]/g, '_').toLowerCase().substring(0, 32)`. -/
def cleanIdentifierOf (gid : String) : String :=
  String.mk ((((gid.toList.map (fun ch => if ch.isAlphanum then ch else '_')).map
    Char.toLower)).take 32)

/-- `ProjectMetadataManager.generateCollectionName`. `resolvePath` stands
for Node's `path.resolve` and `md5hex` for
`crypto.createHash('md5').update(s).digest('hex')`, both outside this
repository. `gitRepoIdentifier` is `string | null | undefined`;
the JS `if (gitRepoIdentifier)` treats `""` as absent. -/
def generateCollectionName (resolvePath md5hex : String → String)
    (projectPath : String) (isHybrid : Bool)
    (gitRepoIdentifier : Option String) : String :=
  let pfx := if isHybrid then "hybrid_code_chunks" else "code_chunks"
  match gitRepoIdentifier with
  | some gid =>
      if gid = "" then
        pfx ++ "_" ++ (md5hex (resolvePath projectPath)).take 8
      else
        pfx ++ "_git_" ++ cleanIdentifierOf gid ++ "_" ++ (md5hex gid).take 8
  | none =>
      pfx ++ "_" ++ (md5hex (resolvePath projectPath)).take 8

/-- Modelled from the spec (§4.4 / claim wording), for comparison with
`generateCollectionName`: "{prefix}_{body}", body = "git_{slug}_{hash8}"
for a supplied git identifier with slug the identifier with
non-alphanumerics replaced by '_', lowercased and truncated to 32
characters, and hash8 the first 8 hex chars of MD5(identifier); otherwise
body = first 8 hex chars of MD5(resolved absolute project path). -/
def specCollectionName (resolvePath md5hex : String → String)
    (projectPath : String) (isHybrid : Bool)
    (gitRepoIdentifier : Option String) : String :=
  let pfx := if isHybrid then "hybrid_code_chunks" else "code_chunks"
  let body :=
    match gitRepoIdentifier with
    | some gid =>
        let slug := String.mk
          (((gid.toList.map (fun ch => if ch.isAlphanum then ch else '_')).map
            Char.toLower).take 32)
        "git_" ++ slug ++ "_" ++ (md5hex gid).take 8
    | none => (md5hex (resolvePath projectPath)).take 8
  pfx ++ "_" ++ body

/-! ## OpenAIEmbedding (src/packages/core/src/embedding/openai-embedding.ts) -/

/-- Catalog entry of `OpenAIEmbedding.getSupportedModels`. -/
structure ModelInfo where
  dimension : Nat
  contextLength : Nat
  description : String
  deriving DecidableEq, Repr

/-- `OpenAIEmbedding.getSupportedModels` (the record as an association
list). -/
def getSupportedModels : List (String × ModelInfo) :=
  [("text-embedding-3-small",
    ⟨1536, 8192, "High performance and cost-effective embedding model (recommended)"⟩),
   ("text-embedding-3-large",
    ⟨3072, 8192, "Highest performance embedding model with larger dimensions"⟩),
   ("text-embedding-ada-002",
    ⟨1536, 8192, "Legacy model (use text-embedding-3-small instead)"⟩),
   ("Qwen/Qwen3-Embedding-8B",
    ⟨4096, 32000, "Qwen3 8B embedding model with 4096 dimensions (32k context)"⟩),
   ("Qwen/Qwen3-Embedding-4B",
    ⟨2560, 32000, "Qwen3 4B embedding model with 2560 dimensions (32k context)"⟩),
   ("Qwen/Qwen3-Embedding-0.6B",
    ⟨1024, 32000, "Qwen3 0.6B embedding model with 1024 dimensions (32k context)"⟩),
   ("text-embedding-v4",
    ⟨1024, 32000, "Qwen text-embedding-v4 model (Alibaba Cloud/DashScope) - 1024 dimensions, requires dashscope.aliyuncs.com baseURL"⟩)]

/-- `supportedModels[model]` lookup. -/
def lookupModel (model : String) : Option ModelInfo :=
  getSupportedModels.lookup model

/-- `OpenAIEmbeddingConfig`. -/
structure OpenAIEmbeddingConfig where
  model : String
  apiKey : String
  baseURL : Option String
  dimensions : Option Nat
  deriving DecidableEq, Repr

/-- JS `x || d` on an optional number (`0` and `undefined` are falsy). -/
def jsOrNat (o : Option Nat) (d : Nat) : Nat :=
  match o with
  | some v => if v = 0 then d else v
  | none => d

/-- JS `s || d` on a string (`""` is falsy). -/
def jsOrStr (s d : String) : String :=
  if s = "" then d else s

/-- JS truthiness of `this.config.dimensions`. -/
def dimensionsTruthy (o : Option Nat) : Bool :=
  match o with
  | some v => v != 0
  | none => false

/-- `pat` is a leading subsequence of the character list. -/
def charsHaveStart : List Char → List Char → Bool
  | [], _ => true
  | _ :: _, [] => false
  | p :: ps, c :: cs => p == c && charsHaveStart ps cs

/-- `pat` occurs contiguously somewhere in the character list. -/
def charsHaveSub (pat : List Char) : List Char → Bool
  | [] => charsHaveStart pat []
  | c :: cs => charsHaveStart pat (c :: cs) || charsHaveSub pat cs

/-- Substring containment on strings, modelling JS
`String.prototype.includes` for `baseURL?.includes('dashscope.aliyuncs.com')`. -/
def strContainsSub (s pat : String) : Bool :=
  charsHaveSub pat.toList s.toList

/-- `this.config.baseURL?.includes('dashscope.aliyuncs.com')`
(`undefined` baseURL is falsy). -/
def isAlibabaOf (cfg : OpenAIEmbeddingConfig) : Bool :=
  match cfg.baseURL with
  | some u => strContainsSub u "dashscope.aliyuncs.com"
  | none => false

/-- The mutable instance fields of `OpenAIEmbedding` touched by the
modelled methods. -/
structure EmbState where
  dimension : Nat
  maxTokens : Nat
  deriving DecidableEq, Repr

/-- `OpenAIEmbedding.updateModelSettings`. -/
def updateModelSettings (cfg : OpenAIEmbeddingConfig) (model : String) : EmbState :=
  match lookupModel model with
  | some info => ⟨jsOrNat cfg.dimensions info.dimension, info.contextLength⟩
  | none => ⟨jsOrNat cfg.dimensions 1536, 8192⟩

/-- Constructor state: `updateModelSettings(config.model || 'text-embedding-3-small')`. -/
def initState (cfg : OpenAIEmbeddingConfig) : EmbState :=
  updateModelSettings cfg (jsOrStr cfg.model "text-embedding-3-small")

/-- `OpenAIEmbedding.getDimension`. -/
def getDimension (cfg : OpenAIEmbeddingConfig) (st : EmbState) : Nat :=
  let model := jsOrStr cfg.model "text-embedding-3-small"
  match lookupModel model with
  | some info => info.dimension
  | none => st.dimension

/-- One item of an embedding API response; vector entries are kept
abstract (`α`) since the client only passes them through or takes their
length. A missing field is `none` (JS `undefined`). -/
structure EmbeddingItem (α : Type) where
  embedding : Option (List α)
  vector : Option (List α)
  deriving DecidableEq, Repr

/-- An embedding API response (`response.data`). -/
structure EmbeddingResponse (α : Type) where
  data : List (EmbeddingItem α)
  deriving DecidableEq, Repr

/-- The response-format handling shared by `detectDimension`, `embed` and
`embedBatch` (lines 74-86, 125-138, 193-218 of openai-embedding.ts):
`if (isAlibaba && firstItem.vector) … else if (firstItem.embedding) …
else throw`. An empty `data` array makes the JS field access throw, which
the surrounding catch turns into an error. -/
def extractFirstVector (isAlibaba : Bool) (resp : EmbeddingResponse α) :
    Except String (List α) :=
  match resp.data.head? with
  | none => .error "Unexpected embedding response format"
  | some firstItem =>
      match isAlibaba, firstItem.vector with
      | true, some v => .ok v
      | _, _ =>
          match firstItem.embedding with
          | some e => .ok e
          | none => .error "Unexpected embedding response format"

/-- The `embedBatch` response handling: the branch is chosen by the FIRST
item, then every item's selected field is read (`response.data.map`); a
missing field on a later item passes `undefined` through, hence
`Option (List α)` per item. -/
def extractAllVectors (isAlibaba : Bool) (resp : EmbeddingResponse α) :
    Except String (List (Option (List α))) :=
  match resp.data.head? with
  | none => .error "Unexpected embedding response format"
  | some firstItem =>
      match isAlibaba, firstItem.vector with
      | true, some _ => .ok (resp.data.map (fun item => item.vector))
      | _, _ =>
          match firstItem.embedding with
          | some _ => .ok (resp.data.map (fun item => item.embedding))
          | none => .error "Unexpected embedding response format"

/-- `OpenAIEmbedding.detectDimension`, as a state-passing function.
`provider` is the remote `client.embeddings.create` for this model
(probe text ↦ response); the returned `Nat` counts provider requests
issued by the call. The method never assigns to `this.dimension` or
`this.maxTokens`, so the state is returned unchanged. -/
def detectDimension (cfg : OpenAIEmbeddingConfig)
    (provider : String → EmbeddingResponse α) (st : EmbState)
    (preprocessText : String → String) (testText : String) :
    Except String Nat × EmbState × Nat :=
  let model := jsOrStr cfg.model "text-embedding-3-small"
  if dimensionsTruthy cfg.dimensions then
    (.ok ((cfg.dimensions).getD 0), st, 0)
  else
    match lookupModel model with
    | some info => (.ok info.dimension, st, 0)
    | none =>
        let resp := provider (preprocessText testText)
        match extractFirstVector (isAlibabaOf cfg) resp with
        | .ok v => (.ok v.length, st, 1)
        | .error e =>
            (.error ("Failed to detect dimension for model " ++ model ++ ": " ++ e),
             st, 1)

/-- Two successive `detectDimension` calls on the same instance (the
second starts from the state the first left behind). Returns the two
request counts. -/
def detectDimensionTwiceRequests (cfg : OpenAIEmbeddingConfig)
    (provider : String → EmbeddingResponse α) (st : EmbState)
    (preprocessText : String → String) (t1 t2 : String) : Nat × Nat :=
  let r1 := detectDimension cfg provider st preprocessText t1
  let r2 := detectDimension cfg provider r1.2.1 preprocessText t2
  (r1.2.2, r2.2.2)

/-! ### embedBatch splitting (openai-embedding.ts lines 153-167) -/

/-- Consecutive slices of size `k` (`texts.slice(i, i + k)` for
`i = 0, k, 2k, …`), with the list's length as fuel. -/
def chunksOfAux (k : Nat) : Nat → List α → List (List α)
  | 0, _ => []
  | _, [] => []
  | fuel + 1, l => l.take k :: chunksOfAux k fuel (l.drop k)

/-- Consecutive slices of size `k` of a list. -/
def chunksOf (k : Nat) (l : List α) : List (List α) :=
  chunksOfAux k l.length l

/-- The single-request path of `embedBatch` (no split): preprocess the
texts, issue one provider request, extract one vector per item. The
provider is modelled as well-formed for this claim: it returns one
vector per input text, in order (`perText`). -/
def embedBatchOnce (preprocessText : String → String)
    (perText : String → List α) (texts : List String) : List (List α) :=
  (texts.map preprocessText).map perText

/-- `OpenAIEmbedding.embedBatch`: with a DashScope-compatible endpoint the
batch ceiling is 10 and longer inputs are split into consecutive slices
of at most 10, each processed by a recursive call; each slice has length
≤ 10, so the recursive call takes the single-request path
(`embedBatch_subBatch` below proves this unfolding faithful). Without the
ceiling `maxBatchSize = texts.length`, so the split never fires. -/
def embedBatch (isAlibaba : Bool) (preprocessText : String → String)
    (perText : String → List α) (texts : List String) : List (List α) :=
  let maxBatchSize := if isAlibaba then 10 else texts.length
  if texts.length > maxBatchSize then
    ((chunksOf maxBatchSize texts).map
      (fun batch => embedBatchOnce preprocessText perText batch)).flatten
  else
    embedBatchOnce preprocessText perText texts

/-- The sizes of the provider requests issued by `embedBatch`. -/
def embedBatchCallSizes (isAlibaba : Bool) (texts : List String) : List Nat :=
  let maxBatchSize := if isAlibaba then 10 else texts.length
  if texts.length > maxBatchSize then
    (chunksOf maxBatchSize texts).map List.length
  else
    [texts.length]

/-- The slice sizes as a function of the input length alone. -/
def sizeSplitAux (k : Nat) : Nat → Nat → List Nat
  | 0, _ => []
  | _, 0 => []
  | fuel + 1, n + 1 => min k (n + 1) :: sizeSplitAux k fuel (n + 1 - k)

/-- Slice sizes of `chunksOf k` on a list of length `n`. -/
def sizeSplit (k n : Nat) : List Nat :=
  sizeSplitAux k n n

/-! ### Concrete instances used by witnesses -/

/-- A configuration with a model outside the catalog and no dimensions
override (the only case in which `detectDimension` contacts the provider). -/
def c2CustomConfig : OpenAIEmbeddingConfig :=
  ⟨"my-custom-model", "key", none, none⟩

/-- A well-formed OpenAI-shaped probe response with a 3-vector. -/
def c2Response : EmbeddingResponse Nat :=
  ⟨[⟨some [1, 2, 3], none⟩]⟩

/-- A DashScope-compatible configuration (Alibaba shape selected). -/
def c4AlibabaConfig : OpenAIEmbeddingConfig :=
  ⟨"text-embedding-v4", "key",
   some "https://dashscope.aliyuncs.com/compatible-mode/v1", none⟩

/-- A plain OpenAI configuration (openai shape selected). -/
def c4OpenAIConfig : OpenAIEmbeddingConfig :=
  ⟨"text-embedding-3-small", "key", none, none⟩

/-- An Alibaba-shaped two-item response (`vector` field). -/
def c4AlibabaResp : EmbeddingResponse Nat :=
  ⟨[⟨none, some [1, 2]⟩, ⟨none, some [3, 4]⟩]⟩

/-- An OpenAI-shaped two-item response (`embedding` field). -/
def c4OpenAIResp : EmbeddingResponse Nat :=
  ⟨[⟨some [1, 2], none⟩, ⟨some [3, 4], none⟩]⟩

/-! ## Helper lemmas -/

theorem lookup_cons_of_ne {k a : String} {b : FileHashEntry}
    {es : List (String × FileHashEntry)} (h : a ≠ k) :
    ((k, b) :: es).lookup a = es.lookup a := by
  have hb : (a == k) = false := beq_eq_false_iff_ne.mpr h
  simp [List.lookup_cons, hb]

theorem lookup_map_replace_eq (p : String) (e : FileHashEntry) :
    ∀ files : List (String × FileHashEntry),
      (files.map (fun kv => if kv.1 = p then (p, e) else kv)).lookup p =
        if files.any (fun kv => decide (kv.1 = p)) then some e else none := by
  intro files
  induction files with
  | nil => simp
  | cons kv t ih =>
      obtain ⟨k, v⟩ := kv
      by_cases hk : k = p
      · subst hk
        simp
      · rw [List.map_cons, List.any_cons]
        simp only [hk, if_false, decide_eq_true_eq, decide_eq_false hk, Bool.false_or]
        rw [lookup_cons_of_ne (Ne.symm hk)]
        exact ih

theorem lookup_map_replace_ne (p q : String) (e : FileHashEntry) (hq : q ≠ p) :
    ∀ files : List (String × FileHashEntry),
      (files.map (fun kv => if kv.1 = p then (p, e) else kv)).lookup q =
        files.lookup q := by
  intro files
  induction files with
  | nil => simp
  | cons kv t ih =>
      obtain ⟨k, v⟩ := kv
      by_cases hk : k = p
      · subst hk
        have hhead : (if ((k, v) : String × FileHashEntry).1 = k then ((k, e) : String × FileHashEntry) else (k, v)) = (k, e) := by
          simp
        rw [List.map_cons, hhead, lookup_cons_of_ne hq, lookup_cons_of_ne hq]
        exact ih
      · rw [List.map_cons]
        simp only [hk, if_false]
        by_cases hqk : q = k
        · subst hqk
          simp
        · rw [lookup_cons_of_ne hqk, lookup_cons_of_ne hqk]
          exact ih

theorem lookup_none_of_any_false (p : String) :
    ∀ files : List (String × FileHashEntry),
      files.any (fun kv => decide (kv.1 = p)) = false → files.lookup p = none := by
  intro files
  induction files with
  | nil => simp
  | cons kv t ih =>
      obtain ⟨k, v⟩ := kv
      intro hany
      rw [List.any_cons] at hany
      simp only [Bool.or_eq_false_iff, decide_eq_false_iff_not] at hany
      rw [lookup_cons_of_ne (Ne.symm hany.1)]
      exact ih (by simpa using hany.2)

theorem lookup_setEntry_self (files : List (String × FileHashEntry)) (p : String)
    (e : FileHashEntry) : (setEntry files p e).lookup p = some e := by
  unfold setEntry
  by_cases hany : files.any (fun kv => decide (kv.1 = p)) = true
  · simp only [hany, if_true]
    rw [lookup_map_replace_eq, hany, if_pos rfl]
  · rw [Bool.not_eq_true] at hany
    simp only [hany, Bool.false_eq_true, if_false]
    rw [List.lookup_append, lookup_none_of_any_false p files hany]
    simp

theorem lookup_setEntry_ne (files : List (String × FileHashEntry)) (p q : String)
    (e : FileHashEntry) (hq : q ≠ p) :
    (setEntry files p e).lookup q = files.lookup q := by
  unfold setEntry
  by_cases hany : files.any (fun kv => decide (kv.1 = p)) = true
  · simp only [hany, if_true]
    exact lookup_map_replace_ne p q e hq files
  · rw [Bool.not_eq_true] at hany
    simp only [hany, Bool.false_eq_true, if_false]
    rw [List.lookup_append]
    have : ([(p, e)] : List (String × FileHashEntry)).lookup q = none := by
      rw [lookup_cons_of_ne hq, List.lookup_nil]
    rw [this, Option.or_none]

theorem chunksOfAux_map_length (k : Nat) :
    ∀ (fuel : Nat) (l : List α),
      (chunksOfAux k fuel l).map List.length = sizeSplitAux k fuel l.length := by
  intro fuel
  induction fuel with
  | zero => intro l; cases l <;> rfl
  | succ n ih =>
      intro l
      cases l with
      | nil => rfl
      | cons x xs =>
          show ((x :: xs).take k).length :: (chunksOfAux k n ((x :: xs).drop k)).map List.length =
            min k (xs.length + 1) :: sizeSplitAux k n (xs.length + 1 - k)
          rw [ih ((x :: xs).drop k)]
          simp [List.length_take, List.length_drop]

theorem chunksOfAux_flatten (k : Nat) (hk : 0 < k) :
    ∀ (fuel : Nat) (l : List α), l.length ≤ fuel →
      (chunksOfAux k fuel l).flatten = l := by
  intro fuel
  induction fuel with
  | zero =>
      intro l hl
      have : l = [] := List.length_eq_zero.mp (Nat.le_zero.mp hl)
      subst this
      rfl
  | succ n ih =>
      intro l hl
      cases l with
      | nil => rfl
      | cons x xs =>
          show ((x :: xs).take k ++ (chunksOfAux k n ((x :: xs).drop k)).flatten) = x :: xs
          rw [ih ((x :: xs).drop k)]
          · exact List.take_append_drop k (x :: xs)
          · rw [List.length_drop]
            have hlen : (x :: xs).length = xs.length + 1 := rfl
            rw [hlen]
            omega

theorem chunksOf_map_length (k : Nat) (l : List α) :
    (chunksOf k l).map List.length = sizeSplit k l.length := by
  unfold chunksOf sizeSplit
  exact chunksOfAux_map_length k l.length l

theorem chunksOf_flatten (k : Nat) (hk : 0 < k) (l : List α) :
    (chunksOf k l).flatten = l := by
  unfold chunksOf
  exact chunksOfAux_flatten k hk l.length l (Nat.le_refl _)

/-! ## Claims -/

/-- C6: for every cache state, relativePath and currentHash,
`hasFileChanged(relativePath, currentHash)` returns true if and only if
the path is absent from the cache's files mapping or its stored hash
differs from `currentHash`. -/
theorem C6_hasFileChanged_iff (cache : SimpleHashCache) (p h : String) :
    hasFileChanged cache p h = true ↔
      cache.files.lookup p = none ∨
        ∃ e, cache.files.lookup p = some e ∧ e.hash ≠ h := by
  unfold hasFileChanged
  cases hl : cache.files.lookup p with
  | none => simp
  | some e => simp

/-- C7: for every cache state and set of current files,
`getDeletedFiles(currentFiles)` contains a path exactly when it is a key
of the cache's files mapping that is not a member of `currentFiles`. -/
theorem C7_getDeletedFiles_mem_iff (cache : SimpleHashCache)
    (currentFiles : List String) (f : String) :
    f ∈ getDeletedFiles cache currentFiles ↔
      f ∈ cache.files.map Prod.fst ∧ f ∉ currentFiles := by
  unfold getDeletedFiles
  rw [List.mem_filter]
  simp

/-- C5: a loaded hash-cache document whose stored collectionName differs
from the current collection name is discarded: the resulting cache reports
every file as changed and no file as deleted. -/
theorem C5_collection_mismatch_resets (loaded : SimpleHashCache) (now : Nat)
    (projectPath collectionName : String)
    (hne : loaded.collectionName ≠ collectionName) :
    (∀ p h, hasFileChanged (loadCache (some loaded) now projectPath collectionName) p h = true) ∧
    (∀ S, getDeletedFiles (loadCache (some loaded) now projectPath collectionName) S = []) := by
  have hload : loadCache (some loaded) now projectPath collectionName =
      ⟨projectPath, collectionName, now, []⟩ := by
    show (if loaded.projectPath = projectPath ∧ loaded.collectionName = collectionName then
        loaded
      else
        ⟨projectPath, collectionName, now, []⟩) =
      (⟨projectPath, collectionName, now, []⟩ : SimpleHashCache)
    rw [if_neg]
    intro hcon
    exact hne hcon.2
  rw [hload]
  constructor
  · intro p h
    rfl
  · intro S
    rfl

/-- Witness for C5 at a concrete mismatched document. -/
theorem C5_collection_mismatch_resets_witness :
    (SimpleHashCache.mk "/proj" "old_coll" 0 [("a.ts", ⟨"h1", 0, 1⟩)]).collectionName ≠ "new_coll" ∧
    hasFileChanged
      (loadCache (some (SimpleHashCache.mk "/proj" "old_coll" 0 [("a.ts", ⟨"h1", 0, 1⟩)]))
        5 "/proj" "new_coll") "a.ts" "h1" = true ∧
    getDeletedFiles
      (loadCache (some (SimpleHashCache.mk "/proj" "old_coll" 0 [("a.ts", ⟨"h1", 0, 1⟩)]))
        5 "/proj" "new_coll") ["b.ts"] = [] :=
  ⟨by decide,
   (C5_collection_mismatch_resets _ 5 "/proj" "new_coll" (by decide)).1 "a.ts" "h1",
   (C5_collection_mismatch_resets _ 5 "/proj" "new_coll" (by decide)).2 ["b.ts"]⟩

/-- C10: after `updateFile(p, h, c)`, `hasFileChanged(p, h)` is false,
`hasFileChanged(p, h')` is true for every `h' ≠ h`, and the entry of every
other path is unchanged. -/
theorem C10_updateFile_spec (cache : SimpleHashCache) (p h : String) (now c : Nat) :
    hasFileChanged (updateFile cache p h now c) p h = false ∧
    (∀ h', h' ≠ h → hasFileChanged (updateFile cache p h now c) p h' = true) ∧
    (∀ q, q ≠ p → (updateFile cache p h now c).files.lookup q = cache.files.lookup q) := by
  refine ⟨?_, ?_, ?_⟩
  · unfold hasFileChanged updateFile
    rw [lookup_setEntry_self]
    simp
  · intro h' hne
    unfold hasFileChanged updateFile
    rw [lookup_setEntry_self]
    simp [Ne.symm hne]
  · intro q hq
    exact lookup_setEntry_ne cache.files p q _ hq

/-- Witness for C10 at a concrete cache, path and hashes. -/
theorem C10_updateFile_spec_witness :
    hasFileChanged
      (updateFile ⟨"/proj", "coll", 0, [("b.ts", ⟨"hb", 0, 1⟩)]⟩ "a.ts" "h1" 7 3)
      "a.ts" "h1" = false ∧
    hasFileChanged
      (updateFile ⟨"/proj", "coll", 0, [("b.ts", ⟨"hb", 0, 1⟩)]⟩ "a.ts" "h1" 7 3)
      "a.ts" "h2" = true ∧
    (updateFile ⟨"/proj", "coll", 0, [("b.ts", ⟨"hb", 0, 1⟩)]⟩ "a.ts" "h1" 7 3).files.lookup "b.ts" =
      (SimpleHashCache.mk "/proj" "coll" 0 [("b.ts", ⟨"hb", 0, 1⟩)]).files.lookup "b.ts" :=
  ⟨(C10_updateFile_spec _ "a.ts" "h1" 7 3).1,
   (C10_updateFile_spec _ "a.ts" "h1" 7 3).2.1 "h2" (by decide),
   (C10_updateFile_spec _ "a.ts" "h1" 7 3).2.2 "b.ts" (by decide)⟩

/-- C1 counterexample: `save()` issues no temp-file-and-rename — its trace
is a single direct write to the cache file — and a crash mid-write can
leave the backing file holding a strict prefix of the new document,
which is neither the previous nor the new document. -/
theorem C1_save_atomic_counterexample :
    (¬ writesTempThenRenames (saveTrace "file-hashes.json" "newdoc") "file-hashes.json") ∧
    fileAfterCrashDuringOp "olddoc" (FsOp.write "file-hashes.json" "newdoc")
      "file-hashes.json" 3 = "new" ∧
    ("new" : String) ≠ "olddoc" ∧ ("new" : String) ≠ "newdoc" := by
  refine ⟨?_, by decide, by decide, by decide⟩
  rintro ⟨tmp, contents, i, j, hne, hij, hi, hj⟩
  cases j with
  | zero => exact absurd hij (Nat.not_lt_zero i)
  | succ j' => simp [saveTrace] at hj

/-- C1 amended: `save()` performs exactly one filesystem operation, a
direct write of the serialized document to the cache file path (no
temporary file, no rename); an uninterrupted save leaves the new document
at the target and every other path untouched. -/
theorem C1_save_direct_write (fs : String → Option String) (cachePath doc : String) :
    runFsTrace fs (saveTrace cachePath doc) =
      (fun q => if q = cachePath then some doc else fs q) ∧
    (saveTrace cachePath doc).all (fun op => !op.isRenameOp) = true := by
  exact ⟨rfl, rfl⟩

/-- C8: `generateCollectionName` agrees with the spec's description of
collection naming, for the path-based case and for every nonempty git
repository identifier. -/
theorem C8_generateCollectionName_spec (resolvePath md5hex : String → String)
    (projectPath : String) (isHybrid : Bool) :
    generateCollectionName resolvePath md5hex projectPath isHybrid none =
      specCollectionName resolvePath md5hex projectPath isHybrid none ∧
    ∀ gid, gid ≠ "" →
      generateCollectionName resolvePath md5hex projectPath isHybrid (some gid) =
        specCollectionName resolvePath md5hex projectPath isHybrid (some gid) := by
  constructor
  · rfl
  · intro gid hgid
    simp only [generateCollectionName, specCollectionName, cleanIdentifierOf,
      if_neg hgid]
    apply String.ext
    simp only [String.data_append, List.append_assoc]
    rfl

/-- Witness for C8 at concrete arguments (with the identity standing in
for the opaque `path.resolve` and MD5 digest parameters). -/
theorem C8_generateCollectionName_spec_witness :
    generateCollectionName id id "/proj" true none =
      specCollectionName id id "/proj" true none ∧
    ("My.Repo" : String) ≠ "" ∧
    generateCollectionName id id "/proj" true (some "My.Repo") =
      specCollectionName id id "/proj" true (some "My.Repo") :=
  ⟨(C8_generateCollectionName_spec id id "/proj" true).1,
   by decide,
   (C8_generateCollectionName_spec id id "/proj" true).2 "My.Repo" (by decide)⟩

/-- C2 counterexample: for a model outside the catalog, the second
`detectDimension` call on the same instance issues a provider request
again (1, not the claimed 0): the method stores nothing, so nothing is
cached between calls. -/
theorem C2_detectDimension_no_cache_counterexample :
    detectDimensionTwiceRequests c2CustomConfig (fun _ => c2Response)
      ⟨1536, 8192⟩ id "t1" "t2" = (1, 1) ∧ (1 : Nat) ≠ 0 :=
  ⟨rfl, by decide⟩

/-- C2 amended: `detectDimension` is stateless. With a truthy dimensions
override or a catalog model it answers without any provider request; for
a model outside the catalog EVERY call (first or subsequent) issues
exactly one provider request, leaves the instance state unchanged, and
returns the length of the returned vector. -/
theorem C2_detectDimension_amended {α : Type} (cfg : OpenAIEmbeddingConfig)
    (provider : String → EmbeddingResponse α) (st : EmbState)
    (pre : String → String) (t : String) :
    (dimensionsTruthy cfg.dimensions = true →
      detectDimension cfg provider st pre t =
        (Except.ok (cfg.dimensions.getD 0), st, 0)) ∧
    (dimensionsTruthy cfg.dimensions = false →
      ∀ info, lookupModel (jsOrStr cfg.model "text-embedding-3-small") = some info →
        detectDimension cfg provider st pre t = (Except.ok info.dimension, st, 0)) ∧
    (dimensionsTruthy cfg.dimensions = false →
      lookupModel (jsOrStr cfg.model "text-embedding-3-small") = none →
      (detectDimension cfg provider st pre t).2.2 = 1 ∧
      (detectDimension cfg provider st pre t).2.1 = st ∧
      ∀ v, extractFirstVector (isAlibabaOf cfg) (provider (pre t)) = Except.ok v →
        (detectDimension cfg provider st pre t).1 = Except.ok v.length) := by
  refine ⟨?_, ?_, ?_⟩
  · intro hdim
    unfold detectDimension
    simp [hdim]
  · intro hdim info hinfo
    unfold detectDimension
    simp [hdim, hinfo]
  · intro hdim hmodel
    have hD : detectDimension cfg provider st pre t =
        match extractFirstVector (isAlibabaOf cfg) (provider (pre t)) with
        | .ok v => (.ok v.length, st, 1)
        | .error e =>
            (.error ("Failed to detect dimension for model " ++
              jsOrStr cfg.model "text-embedding-3-small" ++ ": " ++ e), st, 1) := by
      unfold detectDimension
      simp [hdim, hmodel]
    refine ⟨?_, ?_, ?_⟩
    · rw [hD]
      cases extractFirstVector (isAlibabaOf cfg) (provider (pre t)) <;> rfl
    · rw [hD]
      cases extractFirstVector (isAlibabaOf cfg) (provider (pre t)) <;> rfl
    · intro v hv
      rw [hD, hv]

/-- Witness for C2's amended theorem at the concrete custom-model
configuration and probe response. -/
theorem C2_detectDimension_amended_witness :
    detectDimension ⟨"text-embedding-3-small", "key", none, some 256⟩
      (fun _ => c2Response) ⟨1536, 8192⟩ id "t" = (Except.ok 256, ⟨1536, 8192⟩, 0) ∧
    detectDimension c4OpenAIConfig (fun _ => c2Response) ⟨1536, 8192⟩ id "t" =
      (Except.ok 1536, ⟨1536, 8192⟩, 0) ∧
    (detectDimension c2CustomConfig (fun _ => c2Response) ⟨1536, 8192⟩ id "t").2.2 = 1 ∧
    (detectDimension c2CustomConfig (fun _ => c2Response) ⟨1536, 8192⟩ id "t").2.1 = ⟨1536, 8192⟩ ∧
    (detectDimension c2CustomConfig (fun _ => c2Response) ⟨1536, 8192⟩ id "t").1 =
      Except.ok ([1, 2, 3] : List Nat).length := by
  refine ⟨?_, ?_, ?_, ?_, ?_⟩
  · exact (C2_detectDimension_amended ⟨"text-embedding-3-small", "key", none, some 256⟩
      (fun _ => c2Response) ⟨1536, 8192⟩ id "t").1 (by decide)
  · have H := C2_detectDimension_amended c4OpenAIConfig (fun _ => c2Response)
      (⟨1536, 8192⟩ : EmbState) id "t"
    have h1 : dimensionsTruthy c4OpenAIConfig.dimensions = false := by decide
    have h2 : lookupModel (jsOrStr c4OpenAIConfig.model "text-embedding-3-small") =
        some ⟨1536, 8192, "High performance and cost-effective embedding model (recommended)"⟩ := by
      decide
    exact H.2.1 h1 _ h2
  · exact ((C2_detectDimension_amended c2CustomConfig (fun _ => c2Response)
      ⟨1536, 8192⟩ id "t").2.2 (by decide) (by decide)).1
  · exact ((C2_detectDimension_amended c2CustomConfig (fun _ => c2Response)
      ⟨1536, 8192⟩ id "t").2.2 (by decide) (by decide)).2.1
  · exact ((C2_detectDimension_amended c2CustomConfig (fun _ => c2Response)
      ⟨1536, 8192⟩ id "t").2.2 (by decide) (by decide)).2.2 [1, 2, 3] rfl

/-- C3: with the DashScope batch ceiling (10), `embedBatch` splits the
input into consecutive sub-batches of at most 10 and concatenates: an
input of 23 texts issues provider calls of sizes [10, 10, 3] in order,
an input of exactly 10 issues one call, of 11 two calls, and the result
is one vector per input text in input order (hence of the same length). -/
theorem C3_embedBatch_ceiling_split {α : Type} (pre : String → String)
    (perText : String → List α) (texts : List String) :
    (texts.length = 23 → embedBatchCallSizes true texts = [10, 10, 3]) ∧
    (texts.length = 10 → embedBatchCallSizes true texts = [10]) ∧
    (texts.length = 11 → embedBatchCallSizes true texts = [10, 1]) ∧
    embedBatch true pre perText texts = texts.map (fun t => perText (pre t)) ∧
    (embedBatch true pre perText texts).length = texts.length := by
  have hsizes : ∀ n, texts.length = n → 10 < n →
      embedBatchCallSizes true texts = sizeSplit 10 n := by
    intro n hn hlt
    unfold embedBatchCallSizes
    simp only [if_true]
    rw [if_pos (by omega), chunksOf_map_length, hn]
  have hflat : ∀ L : List (List String),
      (L.map (fun batch => (batch.map pre).map perText)).flatten =
        (L.flatten.map pre).map perText := by
    intro L
    simp [List.map_flatten, List.map_map, Function.comp]
  have hres : embedBatch true pre perText texts = texts.map (fun t => perText (pre t)) := by
    unfold embedBatch embedBatchOnce
    simp only [if_true]
    by_cases hlen : texts.length > 10
    · rw [if_pos hlen, hflat (chunksOf 10 texts), chunksOf_flatten 10 (by omega),
        List.map_map]
      rfl
    · rw [if_neg hlen, List.map_map]
      rfl
  refine ⟨?_, ?_, ?_, hres, ?_⟩
  · intro h23
    rw [hsizes 23 h23 (by omega)]
    rfl
  · intro h10
    unfold embedBatchCallSizes
    simp only [if_true]
    rw [if_neg (by omega), h10]
  · intro h11
    rw [hsizes 11 h11 (by omega)]
    rfl
  · rw [hres, List.length_map]

/-- Witness for C3 at concrete inputs of lengths 23, 10 and 11. -/
theorem C3_embedBatch_ceiling_split_witness :
    embedBatchCallSizes true (List.replicate 23 "t") = [10, 10, 3] ∧
    embedBatchCallSizes true (List.replicate 10 "t") = [10] ∧
    embedBatchCallSizes true (List.replicate 11 "t") = [10, 1] :=
  ⟨(C3_embedBatch_ceiling_split id (fun _ => ([] : List Nat)) _).1 (by decide),
   (C3_embedBatch_ceiling_split id (fun _ => ([] : List Nat)) _).2.1 (by decide),
   (C3_embedBatch_ceiling_split id (fun _ => ([] : List Nat)) _).2.2.1 (by decide)⟩

/-- C4: a well-formed response whose items carry the field selected by the
client's shape (`vector` under a DashScope baseURL, `embedding`
otherwise) is always accepted: the single-vector extraction used by
`embed` succeeds and the batch extraction used by `embedBatch` returns
every item's selected field. -/
theorem C4_response_shapes_accepted {α : Type} (cfg : OpenAIEmbeddingConfig)
    (resp : EmbeddingResponse α) (hne : resp.data ≠ []) :
    (isAlibabaOf cfg = true → (∀ item ∈ resp.data, item.vector.isSome = true) →
      (∃ v, extractFirstVector (isAlibabaOf cfg) resp = Except.ok v) ∧
      extractAllVectors (isAlibabaOf cfg) resp =
        Except.ok (resp.data.map EmbeddingItem.vector)) ∧
    (isAlibabaOf cfg = false → (∀ item ∈ resp.data, item.embedding.isSome = true) →
      (∃ v, extractFirstVector (isAlibabaOf cfg) resp = Except.ok v) ∧
      extractAllVectors (isAlibabaOf cfg) resp =
        Except.ok (resp.data.map EmbeddingItem.embedding)) := by
  obtain ⟨data⟩ := resp
  cases data with
  | nil => exact absurd rfl hne
  | cons first rest =>
      constructor
      · intro hA hAll
        have hfst := hAll first (List.mem_cons_self first rest)
        obtain ⟨v, hv⟩ := Option.isSome_iff_exists.mp hfst
        unfold extractFirstVector extractAllVectors
        rw [hA]
        simp only [List.head?_cons, hv]
        exact ⟨⟨v, rfl⟩, trivial⟩
      · intro hA hAll
        have hfst := hAll first (List.mem_cons_self first rest)
        obtain ⟨e, he⟩ := Option.isSome_iff_exists.mp hfst
        unfold extractFirstVector extractAllVectors
        rw [hA]
        simp only [List.head?_cons, he]
        cases hvec : first.vector <;> exact ⟨⟨e, rfl⟩, trivial⟩

/-- Witness for C4 at the two concrete configuration/response pairs. -/
theorem C4_response_shapes_accepted_witness :
    ((∃ v, extractFirstVector (isAlibabaOf c4AlibabaConfig) c4AlibabaResp = Except.ok v) ∧
      extractAllVectors (isAlibabaOf c4AlibabaConfig) c4AlibabaResp =
        Except.ok (c4AlibabaResp.data.map EmbeddingItem.vector)) ∧
    ((∃ v, extractFirstVector (isAlibabaOf c4OpenAIConfig) c4OpenAIResp = Except.ok v) ∧
      extractAllVectors (isAlibabaOf c4OpenAIConfig) c4OpenAIResp =
        Except.ok (c4OpenAIResp.data.map EmbeddingItem.embedding)) :=
  ⟨(C4_response_shapes_accepted c4AlibabaConfig c4AlibabaResp (by decide)).1
      (by decide) (by decide),
   (C4_response_shapes_accepted c4OpenAIConfig c4OpenAIResp (by decide)).2
      (by decide) (by decide)⟩

/-- C9: for a model in the catalog, `getDimension()` returns the catalog
dimension whatever the instance state and whatever dimensions override is
configured; only for a model outside the catalog is the configured
(non-zero) override reflected, via the constructor-initialised state. -/
theorem C9_getDimension_catalog_wins (cfg : OpenAIEmbeddingConfig) (st : EmbState) :
    (∀ info, lookupModel (jsOrStr cfg.model "text-embedding-3-small") = some info →
      getDimension cfg st = info.dimension) ∧
    (∀ d, lookupModel (jsOrStr cfg.model "text-embedding-3-small") = none →
      cfg.dimensions = some d → d ≠ 0 →
      getDimension cfg (initState cfg) = d) := by
  constructor
  · intro info hinfo
    unfold getDimension
    simp [hinfo]
  · intro d hnone hdims hd
    unfold getDimension initState updateModelSettings
    simp [hnone, hdims, jsOrNat, hd]

/-- Witness for C9: a catalog model (text-embedding-3-large, catalog
dimension 3072) with override 1024 still reports 3072, whatever the
state; a non-catalog model with override 2048 reports 2048. -/
theorem C9_getDimension_catalog_wins_witness :
    getDimension ⟨"text-embedding-3-large", "key", none, some 1024⟩ ⟨999, 0⟩ = 3072 ∧
    getDimension ⟨"my-custom-model", "key", none, some 2048⟩
      (initState ⟨"my-custom-model", "key", none, some 2048⟩) = 2048 :=
  ⟨by
    have h := (C9_getDimension_catalog_wins ⟨"text-embedding-3-large", "key", none, some 1024⟩
      ⟨999, 0⟩).1 ⟨3072, 8192, "Highest performance embedding model with larger dimensions"⟩
      (by decide)
    simpa using h,
   (C9_getDimension_catalog_wins ⟨"my-custom-model", "key", none, some 2048⟩
      ⟨0, 0⟩).2 2048 (by decide) rfl (by decide)⟩
